import Mathlib

/-!
Shallow embedding of the admin router (`src/routes/admin.js`) of the
genx-backend repository.

The persistence layer is modelled as an explicit `Store` holding the two
collections (events, users).  Each Express handler becomes a pure Lean
function from the store (and the request parameters, plus the current
clock value `now` where the handler reads the clock) to a response, and —
for mutating handlers — the updated store.  Mongo document ids are
modelled as `Nat`, timestamps (`Date` values compared numerically) as
`Int`.
-/

namespace AdminApi

/-- Modelled from the spec: the Event schema (`../models/Event`) is not in
`src/`; per the spec a registration is "an embedded record on an Event
referencing a User by id" (event-specific metadata elided, as the spec
names none of it). -/
structure Registration where
  user : Nat
  deriving DecidableEq

/-- Event document, with the shape §3 of the spec depends on.  Modelled
from the spec where the schema file is absent from `src/`: new events get
an empty `registrations` array by default. -/
structure Event where
  id : Nat
  title : String
  description : String
  date : Int
  time : String
  venue : String
  status : String
  registrations : List Registration
  deriving DecidableEq

/-- User document with the fields the handlers read or project. -/
structure User where
  id : Nat
  name : String
  email : String
  registration_no : String
  role : String
  password : String
  branch : String
  semester : String
  mobile : String
  createdAt : Int
  deriving DecidableEq

/-- The store: the two collections the router operates on. -/
structure Store where
  events : List Event
  users : List User
  deriving DecidableEq

/-- A user document after `.select('-password')`: every field of `User`
except `password`. -/
structure UserView where
  id : Nat
  name : String
  email : String
  registration_no : String
  role : String
  branch : String
  semester : String
  mobile : String
  createdAt : Int
  deriving DecidableEq

/-- Projection performed by `.select('-password')`. -/
def stripPassword (u : User) : UserView :=
  { id := u.id, name := u.name, email := u.email,
    registration_no := u.registration_no, role := u.role, branch := u.branch,
    semester := u.semester, mobile := u.mobile, createdAt := u.createdAt }

/-- The whitelisted projection used when populating `registrations.user`:
`select: 'name email registration_no branch semester mobile role'` (plus
the id, which Mongo always includes). -/
structure RegUser where
  id : Nat
  name : String
  email : String
  registration_no : String
  branch : String
  semester : String
  mobile : String
  role : String
  deriving DecidableEq

def toRegUser (u : User) : RegUser :=
  { id := u.id, name := u.name, email := u.email,
    registration_no := u.registration_no, branch := u.branch,
    semester := u.semester, mobile := u.mobile, role := u.role }

/-- `populate({path: 'registrations.user', select: ...})` for a single
registration: resolve the referenced user id and project it; `none` when
the referenced user no longer exists (Mongo populates it as null). -/
def populateReg (s : Store) (r : Registration) : Option RegUser :=
  (s.users.find? (fun u => u.id == r.user)).map toRegUser

/-- Sort key used by `.sort({ date: -1 })`: descending by `date`. -/
def eventDateGE (a b : Event) : Prop := b.date ≤ a.date

instance : DecidableRel eventDateGE :=
  fun a b => inferInstanceAs (Decidable (b.date ≤ a.date))

instance : IsTotal Event eventDateGE := ⟨fun a b => le_total b.date a.date⟩

instance : IsTrans Event eventDateGE := ⟨fun _ _ _ h1 h2 => le_trans h2 h1⟩

/-- `Event.find().sort({ date: -1 })`. -/
def sortByDateDesc (l : List Event) : List Event :=
  List.insertionSort eventDateGE l

/-- Sort key used by `.sort({ createdAt: -1 })`: descending by `createdAt`. -/
def userCreatedGE (a b : User) : Prop := b.createdAt ≤ a.createdAt

instance : DecidableRel userCreatedGE :=
  fun a b => inferInstanceAs (Decidable (b.createdAt ≤ a.createdAt))

instance : IsTotal User userCreatedGE := ⟨fun a b => le_total b.createdAt a.createdAt⟩

instance : IsTrans User userCreatedGE := ⟨fun _ _ _ h1 h2 => le_trans h2 h1⟩

/-- `User.find(query).sort({ createdAt: -1 })`. -/
def sortByCreatedDesc (l : List User) : List User :=
  List.insertionSort userCreatedGE l

/-- `Event.countDocuments({ _id: id })`: the number of documents in the
events collection whose id equals `id`. -/
def countDocumentsById (s : Store) (id : Nat) : Nat :=
  (s.events.filter (fun e => e.id == id)).length

/-- One element of the `GET /events` response: the spread
`{...event.toObject(), registrations}` overwrites the document's
`registrations` array with the count, so the field is a number here. -/
structure EventOut where
  id : Nat
  title : String
  description : String
  date : Int
  time : String
  venue : String
  status : String
  registrations : Nat
  deriving DecidableEq

def eventToOut (e : Event) (registrations : Nat) : EventOut :=
  { id := e.id, title := e.title, description := e.description,
    date := e.date, time := e.time, venue := e.venue, status := e.status,
    registrations := registrations }

/-- Response of `GET /events`: a 200 JSON array, or the catch-all 500
`{message: 'Server error'}`. -/
inductive EventsResp where
  | ok (data : List EventOut)
  | serverError (message : String)
  deriving DecidableEq

def EventsResp.status : EventsResp → Nat
  | .ok _ => 200
  | .serverError _ => 500

/-- `Promise.all` over already-settled computations: succeeds with the
list of results when every element succeeded, and rejects (with the error
of the first rejected element) as soon as any element rejected. -/
def promiseAll {ε α : Type} : List (Except ε α) → Except ε (List α)
  | [] => .ok []
  | .error e :: _ => .error e
  | .ok a :: xs => (promiseAll xs).map (fun l => a :: l)

/-- `GET /events`, with the per-event count sub-query abstracted as a
fallible operation `count` so the `Promise.all` failure semantics is
explicit.  On any rejection the handler's catch replies
500 `{message: 'Server error'}`. -/
def getEventsWith (s : Store) (count : Event → Except String Nat) : EventsResp :=
  match promiseAll ((sortByDateDesc s.events).map
      (fun e => (count e).map (fun c => eventToOut e c))) with
  | .error _ => .serverError "Server error"
  | .ok l => .ok l

/-- `GET /events` with the count sub-queries all answered by the store:
each one is `Event.countDocuments({ _id: event._id })` — a count over the
events collection, not over registrants. -/
def getEvents (s : Store) : EventsResp :=
  getEventsWith s (fun e => .ok (countDocumentsById s e.id))

/-- Request body of `POST /events` and `PUT /events/:id`:
`{title, description, date, time, venue}`. -/
structure EventBody where
  title : String
  description : String
  date : Int
  time : String
  venue : String
  deriving DecidableEq

/-- `new Date(date) > new Date() ? 'upcoming' : 'past'`. -/
def deriveStatus (date now : Int) : String :=
  if date > now then "upcoming" else "past"

/-- `POST /events`: build the document (status derived from the clock,
registrations defaulting to the empty array per the schema), save it, and
return the created document (201).  `newId` is the id the store assigns. -/
def createEvent (s : Store) (now : Int) (newId : Nat) (b : EventBody) :
    Event × Store :=
  let e : Event :=
    { id := newId, title := b.title, description := b.description,
      date := b.date, time := b.time, venue := b.venue,
      status := deriveStatus b.date now, registrations := [] }
  (e, { s with events := s.events ++ [e] })

/-- Response of `PUT /events/:id`. -/
inductive UpdateEventResp where
  | notFound (message : String)
  | ok (event : Event)
  deriving DecidableEq

def UpdateEventResp.status : UpdateEventResp → Nat
  | .notFound _ => 404
  | .ok _ => 200

/-- `PUT /events/:id` (`findByIdAndUpdate` with `{new: true}`): update the
listed fields of the document with that id, re-deriving `status` from the
clock; 404 when no document has that id. -/
def updateEvent (s : Store) (now : Int) (id : Nat) (b : EventBody) :
    UpdateEventResp × Store :=
  match s.events.find? (fun e => e.id == id) with
  | none => (.notFound "Event not found", s)
  | some e =>
    let e2 : Event :=
      { e with
          title := b.title
          description := b.description
          date := b.date
          time := b.time
          venue := b.venue
          status := deriveStatus b.date now }
    (.ok e2, { s with events := s.events.map (fun x => if x.id == id then e2 else x) })

/-- Response of `DELETE /events/:id`. -/
inductive DeleteResp where
  | notFound (message : String)
  | ok (message : String)
  deriving DecidableEq

def DeleteResp.status : DeleteResp → Nat
  | .notFound _ => 404
  | .ok _ => 200

/-- `DELETE /events/:id` (`findByIdAndDelete`): remove the document with
that id; 404 when no document has that id. -/
def deleteEvent (s : Store) (id : Nat) : DeleteResp × Store :=
  match s.events.find? (fun e => e.id == id) with
  | none => (.notFound "Event not found", s)
  | some _ =>
    (.ok "Event deleted successfully",
     { s with events := s.events.filter (fun e => e.id != id) })

/-- Helper for the search query: case-insensitive substring containment of
`pat` in `hay`, on the lower-cased character lists. -/
def ciContainsAux (pat : List Char) : List Char → Bool
  | [] => pat.isEmpty
  | c :: cs => pat.isPrefixOf (c :: cs) || ciContainsAux pat cs

/-- One field matcher `{field: {$regex: search, $options: 'i'}}`, modelled
(following the spec's reading, exact for metacharacter-free search
strings) as case-insensitive substring containment. -/
def ciContains (hay pat : String) : Bool :=
  ciContainsAux (pat.data.map Char.toLower) (hay.data.map Char.toLower)

/-- The `$or` of the three field matchers built when `search` is truthy. -/
def userMatches (q : String) (u : User) : Bool :=
  ciContains u.name q || ciContains u.email q || ciContains u.registration_no q

/-- The query built by `GET /users`: `{}` when `search` is absent or empty
(falsy), else the three-way `$or`. -/
def userQuery (search : Option String) : User → Bool :=
  fun u =>
    match search with
    | none => true
    | some q => if q.isEmpty then true else userMatches q u

/-- Response of `GET /users`: `{users, total, page, totalPages}`. -/
structure UsersResp where
  users : List UserView
  total : Nat
  page : Nat
  totalPages : Nat
  deriving DecidableEq

/-- `GET /users?search=&page=&limit=`.  `page` defaults to 1 and `limit`
to 10 when absent.  `total` counts every document matching the query;
the returned page applies sort (createdAt descending), skip
`(page-1)*limit`, limit, and the `-password` projection.  `totalPages` is
`Math.ceil(total / limit)`, written here in natural-number arithmetic
(for positive `limit` this equals the rational ceiling, see
`totalPages_eq_ceil`). -/
def getUsers (s : Store) (search : Option String) (pageQ limitQ : Option Nat) :
    UsersResp :=
  let page := pageQ.getD 1
  let limit := limitQ.getD 10
  let matching := s.users.filter (userQuery search)
  let total := matching.length
  let sorted := sortByCreatedDesc matching
  { users := ((sorted.drop ((page - 1) * limit)).take limit).map stripPassword,
    total := total,
    page := page,
    totalPages := (total + limit - 1) / limit }

/-- The roles accepted by `PUT /users/:id/role`. -/
def validRoles : List String := ["user", "admin", "superadmin"]

/-- Response of `PUT /users/:id/role`: the `{success, ...}` envelope. -/
inductive RoleResp where
  | badRequest (message : String)
  | notFound (message : String)
  | ok (data : UserView)
  deriving DecidableEq

def RoleResp.status : RoleResp → Nat
  | .badRequest _ => 400
  | .notFound _ => 404
  | .ok _ => 200

def RoleResp.success : RoleResp → Bool
  | .ok _ => true
  | _ => false

/-- `PUT /users/:id/role`: reject with 400 before touching the store when
the role is not one of the three enumerated values; otherwise
`findByIdAndUpdate(id, {role}, {new: true})` with the `-password`
projection, 404 when the id has no match. -/
def updateUserRole (s : Store) (id : Nat) (role : String) : RoleResp × Store :=
  if !(validRoles.contains role) then
    (.badRequest "Invalid role specified", s)
  else
    match s.users.find? (fun u => u.id == id) with
    | none => (.notFound "User not found", s)
    | some u =>
      let u2 : User := { u with role := role }
      (.ok (stripPassword u2),
       { s with users := s.users.map (fun x => if x.id == id then u2 else x) })

/-- One element of the `GET /events/all` response: the spread
`{...event.toObject(), registrationCount}` keeps the populated
registrations array and adds the count. -/
structure PopEvent where
  id : Nat
  title : String
  description : String
  date : Int
  time : String
  venue : String
  status : String
  registrations : List (Option RegUser)
  registrationCount : Nat
  deriving DecidableEq

def eventToPop (s : Store) (e : Event) : PopEvent :=
  { id := e.id, title := e.title, description := e.description,
    date := e.date, time := e.time, venue := e.venue, status := e.status,
    registrations := e.registrations.map (populateReg s),
    registrationCount := e.registrations.length }

/-- Response of `GET /events/all`: `{success, count, data}`. -/
structure EventsAllResp where
  success : Bool
  count : Nat
  data : List PopEvent
  deriving DecidableEq

/-- `GET /events/all`: all events sorted by date descending, registrations
populated with the whitelisted user projection, each event carrying
`registrationCount = registrations.length`; `count` is `events.length`. -/
def getEventsAll (s : Store) : EventsAllResp :=
  let events := sortByDateDesc s.events
  { success := true,
    count := events.length,
    data := events.map (eventToPop s) }

/-- Response of `GET /events/:id/registrations`. -/
inductive RegsResp where
  | notFound (message : String)
  | ok (count : Nat) (data : List (Option RegUser))
  deriving DecidableEq

def RegsResp.status : RegsResp → Nat
  | .notFound _ => 404
  | .ok _ _ => 200

/-- `GET /events/:id/registrations`: find the event by id (404 when
absent), populate its registrations, reply
`{success, count: registrations.length, data: registrations}`. -/
def getEventRegistrations (s : Store) (id : Nat) : RegsResp :=
  match s.events.find? (fun e => e.id == id) with
  | none => .notFound "Event not found"
  | some e => .ok e.registrations.length (e.registrations.map (populateReg s))

/-! ### Concrete demonstration data, used by the witness theorems. -/

def demoUser1 : User :=
  { id := 1, name := "Alice", email := "alice@x.com", registration_no := "R1",
    role := "user", password := "pw", branch := "CSE", semester := "3",
    mobile := "999", createdAt := 10 }

def demoUser2 : User :=
  { id := 2, name := "Nobody", email := "b@y.z", registration_no := "TEST123",
    role := "user", password := "pw2", branch := "EE", semester := "1",
    mobile := "888", createdAt := 20 }

def demoEvent1 : Event :=
  { id := 1, title := "Hack", description := "d", date := 100, time := "10:00",
    venue := "Hall", status := "past", registrations := [⟨2⟩] }

def demoEvent2 : Event :=
  { id := 2, title := "Talk", description := "d2", date := 50, time := "11:00",
    venue := "Room", status := "past", registrations := [] }

def demoStore : Store :=
  { events := [demoEvent1, demoEvent2], users := [demoUser1, demoUser2] }

def demoBody : EventBody :=
  { title := "T", description := "D", date := 100, time := "t", venue := "v" }

def mkUser (i : Nat) : User :=
  { id := i, name := "u", email := "e", registration_no := "r", role := "user",
    password := "pw", branch := "", semester := "", mobile := "",
    createdAt := (i : Int) }

def store25 : Store :=
  { events := [], users := (List.range 25).map mkUser }

/-- Per-event count oracle that rejects on the first demo event. -/
def demoCountFail : Event → Except String Nat :=
  fun e => if e.id == 1 then .error "boom" else .ok 0

/-! ### Helper lemmas. -/

theorem promiseAll_map_ok {α β : Type} (f : α → β) (l : List α) :
    promiseAll (l.map (fun a => (Except.ok (f a) : Except String β)))
      = .ok (l.map f) := by
  induction l with
  | nil => rfl
  | cons a t ih => simp [promiseAll, ih, Except.map]

theorem promiseAll_error_of_mem {ε α : Type} (l : List (Except ε α)) (x : Except ε α)
    (hx : x ∈ l) (msg : ε) (hmsg : x = .error msg) :
    ∃ m, promiseAll l = .error m := by
  induction l with
  | nil => cases hx
  | cons a t ih =>
    rcases List.mem_cons.mp hx with rfl | hmem
    · exact ⟨msg, by simp [promiseAll, hmsg]⟩
    · cases a with
      | error e => exact ⟨e, by simp [promiseAll]⟩
      | ok v =>
        obtain ⟨m, hm⟩ := ih hmem
        exact ⟨m, by simp [promiseAll, hm, Except.map]⟩

theorem promiseAll_ok_of_forall {ε α : Type} (l : List (Except ε α))
    (h : ∀ x ∈ l, ∃ a, x = .ok a) :
    ∃ xs, promiseAll l = .ok xs ∧ xs.length = l.length := by
  induction l with
  | nil => exact ⟨[], rfl, rfl⟩
  | cons a t ih =>
    obtain ⟨v, rfl⟩ := h a (List.mem_cons_self a t)
    obtain ⟨xs, hxs, hlen⟩ := ih (fun x hx => h x (List.mem_cons_of_mem _ hx))
    exact ⟨v :: xs, by simp [promiseAll, hxs, Except.map], by simp [hlen]⟩

theorem filter_id_singleton (l : List Event) (e : Event) (he : e ∈ l)
    (h : (l.map Event.id).Nodup) : l.filter (fun x => x.id == e.id) = [e] := by
  induction l with
  | nil => cases he
  | cons a t ih =>
    rw [List.map_cons, List.nodup_cons] at h
    rcases List.mem_cons.mp he with rfl | hmem
    · have ht : t.filter (fun x => x.id == e.id) = [] := by
        rw [List.filter_eq_nil_iff]
        intro x hx
        simp only [beq_iff_eq]
        intro hxe
        exact h.1 (hxe ▸ List.mem_map_of_mem Event.id hx)
      simp [List.filter_cons, ht]
    · have hne : (a.id == e.id) = false := by
        simp only [beq_eq_false_iff_ne, ne_eq]
        intro hae
        exact h.1 (hae ▸ List.mem_map_of_mem Event.id hmem)
      simp [List.filter_cons, hne, ih hmem h.2]

theorem totalPages_eq_ceil (t l : ℕ) (hl : 0 < l) :
    ((t + l - 1) / l : ℕ) = ⌈(t : ℚ) / (l : ℚ)⌉₊ := by
  have hl2 : (0:ℚ) < (l:ℚ) := by exact_mod_cast hl
  have key : ∀ n : ℕ, ⌈(t:ℚ)/(l:ℚ)⌉₊ ≤ n ↔ t ≤ n * l := by
    intro n
    rw [Nat.ceil_le, div_le_iff₀ hl2]
    exact_mod_cast Iff.rfl
  have key2 : ∀ n : ℕ, (t + l - 1)/l ≤ n ↔ t ≤ n * l := by
    intro n
    rw [Nat.lt_succ_iff.symm, Nat.div_lt_iff_lt_mul hl, Nat.succ_mul]
    generalize n * l = m
    omega
  exact le_antisymm ((key2 _).mpr ((key _).mp le_rfl)) ((key _).mpr ((key2 _).mp le_rfl))

/-! ### The claims. -/

/-- C1: every element of the `GET /events` response carries a
`registrations` field equal to the count of events-collection documents
whose id is the event's own id (not a registrant count); when document ids
are pairwise distinct this value is therefore 1 for every returned event
(in particular it is 0 or 1, and equals 1 because the counted event still
exists in the store when the count runs). -/
theorem C1_events_registrations_counts_events (s : Store)
    (h : (s.events.map Event.id).Nodup) :
    ∃ data, getEvents s = .ok data ∧
      ∀ x ∈ data, x.registrations = countDocumentsById s x.id ∧
        x.registrations = 1 := by
  refine ⟨(sortByDateDesc s.events).map
      (fun e => eventToOut e (countDocumentsById s e.id)), ?_, ?_⟩
  · show getEventsWith s _ = _
    unfold getEventsWith
    have hmap : (sortByDateDesc s.events).map
        (fun e => ((Except.ok (countDocumentsById s e.id) : Except String Nat)).map
          (fun c => eventToOut e c))
        = (sortByDateDesc s.events).map
            (fun e => (Except.ok (eventToOut e (countDocumentsById s e.id)) :
              Except String EventOut)) := by
      simp [Except.map]
    rw [hmap, promiseAll_map_ok (fun e => eventToOut e (countDocumentsById s e.id))]
  · intro x hx
    simp only [List.mem_map] at hx
    obtain ⟨e, he, rfl⟩ := hx
    have he2 : e ∈ s.events :=
      (List.perm_insertionSort eventDateGE s.events).mem_iff.mp he
    refine ⟨rfl, ?_⟩
    show countDocumentsById s e.id = 1
    unfold countDocumentsById
    rw [filter_id_singleton s.events e he2 h]
    rfl

/-- C1 witness: on a concrete store with distinct ids, every event in the
response reports `registrations = 1`, the events-collection count. -/
theorem C1_witness :
    (demoStore.events.map Event.id).Nodup ∧
    ∃ data, getEvents demoStore = .ok data ∧
      ∀ x ∈ data, x.registrations = countDocumentsById demoStore x.id ∧
        x.registrations = 1 :=
  ⟨by decide, C1_events_registrations_counts_events demoStore (by decide)⟩

/-- C2: `PUT /users/:id/role` rejects any role outside
{user, admin, superadmin} with 400 and an untouched store; with a valid
role it updates the matching user and returns it with the password
projected away, or answers 404 (untouched store) when the id has no
match. -/
theorem C2_role_update (s : Store) (id : Nat) (role : String) :
    (role ∉ validRoles →
      updateUserRole s id role = (.badRequest "Invalid role specified", s) ∧
      (updateUserRole s id role).1.status = 400 ∧
      (updateUserRole s id role).1.success = false)
  ∧ (role ∈ validRoles → ∀ u, s.users.find? (fun x => x.id == id) = some u →
      updateUserRole s id role =
        (.ok (stripPassword { u with role := role }),
         { s with users := s.users.map
                    (fun x => if x.id == id then { u with role := role } else x) }) ∧
      (updateUserRole s id role).1.success = true ∧
      (updateUserRole s id role).1.status = 200)
  ∧ (role ∈ validRoles → s.users.find? (fun x => x.id == id) = none →
      updateUserRole s id role = (.notFound "User not found", s) ∧
      (updateUserRole s id role).1.status = 404 ∧
      (updateUserRole s id role).1.success = false) := by
  refine ⟨fun h => ?_, fun h u hu => ?_, fun h hn => ?_⟩
  · have he : updateUserRole s id role = (.badRequest "Invalid role specified", s) := by
      simp [updateUserRole, h]
    exact ⟨he, by rw [he]; rfl, by rw [he]; rfl⟩
  · have he : updateUserRole s id role =
        (.ok (stripPassword { u with role := role }),
         { s with users := s.users.map
                    (fun x => if x.id == id then { u with role := role } else x) }) := by
      simp [updateUserRole, h, hu]
    exact ⟨he, by rw [he]; rfl, by rw [he]; rfl⟩
  · have he : updateUserRole s id role = (.notFound "User not found", s) := by
      simp [updateUserRole, h, hn]
    exact ⟨he, by rw [he]; rfl, by rw [he]; rfl⟩

/-- C2 witness: on a concrete store, an unknown role is rejected with an
unchanged store, a valid role on an existing user succeeds with the
password excluded, and a valid role on an absent id yields 404. -/
theorem C2_witness :
    ("owner" ∉ validRoles ∧
      updateUserRole demoStore 1 "owner" = (.badRequest "Invalid role specified", demoStore))
  ∧ (updateUserRole demoStore 1 "admin").1
      = .ok (stripPassword { demoUser1 with role := "admin" })
  ∧ ("admin" ∈ validRoles ∧
      updateUserRole demoStore 99 "admin" = (.notFound "User not found", demoStore)) := by
  refine ⟨⟨by decide, ((C2_role_update demoStore 1 "owner").1 (by decide)).1⟩, ?_,
    ⟨by decide, ((C2_role_update demoStore 99 "admin").2.2 (by decide) (by decide)).1⟩⟩
  have h := ((C2_role_update demoStore 1 "admin").2.1 (by decide) demoUser1 (by decide)).1
  rw [h]

/-- The event stored by a successful `PUT /events/:id` on the first demo
event, used by the C3 witness. -/
def demoUpdated : Event :=
  { demoEvent1 with
      title := "T"
      description := "D"
      date := 100
      time := "t"
      venue := "v"
      status := "upcoming" }

/-- C3: both writers derive `status` at write time as "upcoming" exactly
when the supplied date is strictly after the clock, and "past" otherwise —
including the boundary where the date equals the clock; reads return the
stored status verbatim (the read handlers take no clock at all). -/
theorem C3_status_write_time (s : Store) (now : Int) (newId : Nat) (b : EventBody) :
    ((createEvent s now newId b).1.status
        = if b.date > now then "upcoming" else "past")
  ∧ (b.date = now → (createEvent s now newId b).1.status = "past")
  ∧ (∀ id e s2, updateEvent s now id b = (.ok e, s2) →
      e.status = if b.date > now then "upcoming" else "past")
  ∧ (∀ p ∈ (getEventsAll s).data, ∃ e ∈ s.events, p.id = e.id ∧ p.status = e.status) := by
  refine ⟨rfl, fun hb => ?_, fun id e s2 h => ?_, fun p hp => ?_⟩
  · show deriveStatus b.date now = "past"
    rw [deriveStatus, hb, if_neg (lt_irrefl now)]
  · unfold updateEvent at h
    cases hfind : s.events.find? (fun x => x.id == id) with
    | none =>
      rw [hfind] at h
      exact absurd (congrArg Prod.fst h) (by simp)
    | some e0 =>
      rw [hfind] at h
      have h1 := congrArg Prod.fst h
      simp only [UpdateEventResp.ok.injEq] at h1
      rw [← h1]
      rfl
  · simp only [getEventsAll, List.mem_map] at hp
    obtain ⟨e, he, rfl⟩ := hp
    exact ⟨e, (List.perm_insertionSort eventDateGE s.events).mem_iff.mp he, rfl, rfl⟩

/-- C3 witness: with the clock at 0 a date of 100 is stored "upcoming" on
create and on update; with the clock at the date itself it is stored
"past". -/
theorem C3_witness :
    (createEvent demoStore 0 7 demoBody).1.status = "upcoming"
  ∧ (createEvent demoStore 100 7 demoBody).1.status = "past"
  ∧ demoUpdated.status = "upcoming" := by
  refine ⟨?_, (C3_status_write_time demoStore 100 7 demoBody).2.1 rfl, ?_⟩
  · have h := (C3_status_write_time demoStore 0 7 demoBody).1
    simpa using h
  · have h := (C3_status_write_time demoStore 0 7 demoBody).2.2.1 1 demoUpdated
      (updateEvent demoStore 0 1 demoBody).2 (by rfl)
    simpa using h

/-- C4: `GET /users` responses satisfy: `total` counts every user matching
the (possibly filtered) query independent of pagination; the page holds at
most `limit` users; it is the `(page-1)*limit`-skip / `limit`-take window
of the matching users sorted by creation time descending; creation times
on the page are descending; every returned user is a stored matching user
with the password projected away; `totalPages` is the rational ceiling of
`total / limit`; and the `page` field echoes the page parameter. -/
theorem C4_users_pagination (s : Store) (search : Option String) (page limit : Nat)
    (hl : 0 < limit) :
    (getUsers s search (some page) (some limit)).total
        = (s.users.filter (userQuery search)).length
  ∧ (getUsers s search (some page) (some limit)).users.length ≤ limit
  ∧ (getUsers s search (some page) (some limit)).users
        = (((sortByCreatedDesc (s.users.filter (userQuery search))).map
            stripPassword).drop ((page - 1) * limit)).take limit
  ∧ ((getUsers s search (some page) (some limit)).users.map
        UserView.createdAt).Sorted (· ≥ ·)
  ∧ (∀ v ∈ (getUsers s search (some page) (some limit)).users,
        ∃ u ∈ s.users, userQuery search u = true ∧ v = stripPassword u)
  ∧ (getUsers s search (some page) (some limit)).totalPages
        = ⌈(((s.users.filter (userQuery search)).length : ℚ)) / (limit : ℚ)⌉₊
  ∧ (getUsers s search (some page) (some limit)).page = page := by
  have hs : List.Sorted userCreatedGE
      (sortByCreatedDesc (s.users.filter (userQuery search))) :=
    List.sorted_insertionSort userCreatedGE _
  have hsub : ((((sortByCreatedDesc (s.users.filter (userQuery search))).drop
      ((page - 1) * limit)).take limit)).Sublist
      (sortByCreatedDesc (s.users.filter (userQuery search))) :=
    (List.take_sublist _ _).trans (List.drop_sublist _ _)
  refine ⟨rfl, ?_, ?_, ?_, ?_, ?_, rfl⟩
  · show ((((sortByCreatedDesc _).drop _).take limit).map stripPassword).length ≤ limit
    rw [List.length_map, List.length_take]
    exact min_le_left _ _
  · show (((sortByCreatedDesc _).drop _).take limit).map stripPassword = _
    rw [List.map_take, List.map_drop]
    rfl
  · show ((((sortByCreatedDesc _).drop _).take limit).map stripPassword).map
      UserView.createdAt |>.Sorted (· ≥ ·)
    rw [List.map_map]
    exact List.pairwise_map.mpr (List.Pairwise.sublist hsub hs)
  · intro v hv
    simp only [getUsers, List.mem_map] at hv
    obtain ⟨u, hu, rfl⟩ := hv
    have hu2 : u ∈ sortByCreatedDesc (s.users.filter (userQuery search)) :=
      hsub.mem hu
    have hu3 : u ∈ s.users.filter (userQuery search) :=
      (List.perm_insertionSort userCreatedGE _).mem_iff.mp hu2
    obtain ⟨hm, hq⟩ := List.mem_filter.mp hu3
    exact ⟨u, hm, hq, rfl⟩
  · exact totalPages_eq_ceil _ limit hl

/-- C4 witness: 25 stored users, limit 10, page 3 — the pinned instance:
totalPages is 3 and the page is the slice of items 21 through 25 of the
creation-time-descending order. -/
theorem C4_witness :
    (0:Nat) < 10
  ∧ (getUsers store25 none (some 3) (some 10)).users.length ≤ 10
  ∧ (getUsers store25 none (some 3) (some 10)).total = 25
  ∧ (getUsers store25 none (some 3) (some 10)).totalPages = 3
  ∧ (getUsers store25 none (some 3) (some 10)).users
      = [stripPassword (mkUser 4), stripPassword (mkUser 3), stripPassword (mkUser 2),
         stripPassword (mkUser 1), stripPassword (mkUser 0)] := by
  refine ⟨by decide, (C4_users_pagination store25 none 3 10 (by decide)).2.1,
    by decide, by decide, by decide⟩

/-- C5: with a non-empty search string, a user passes the filter of
`GET /users` exactly when the string occurs case-insensitively in at least
one of name, email, registration_no — a logical OR across the three
fields. -/
theorem C5_search_or_semantics (s : Store) (q : String) (hq : q ≠ "") (u : User) :
    u ∈ s.users.filter (userQuery (some q)) ↔
      u ∈ s.users ∧
        (ciContains u.name q || ciContains u.email q
          || ciContains u.registration_no q) = true := by
  have hq2 : q.isEmpty = false := by
    cases h : q.isEmpty
    · rfl
    · exact absurd ((String.isEmpty_iff q).mp h) hq
  rw [List.mem_filter]
  simp [userQuery, userMatches, hq2]

/-- C5 witness: "test" matches the demo user only on registration_no
("TEST123", case-insensitively), and that user is still returned. -/
theorem C5_witness :
    demoUser2 ∈ demoStore.users.filter (userQuery (some "test"))
  ∧ ciContains demoUser2.name "test" = false
  ∧ ciContains demoUser2.email "test" = false
  ∧ ciContains demoUser2.registration_no "test" = true := by
  refine ⟨?_, by decide, by decide, by decide⟩
  exact (C5_search_or_semantics demoStore "test" (by decide) demoUser2).mpr
    ⟨by decide, by decide⟩

/-- C6: round-trip — an event created through `POST /events` (which stores
an empty registrations array) appears in the next `GET /events/all`
response with `registrationCount = 0` and an empty registrations array. -/
theorem C6_create_roundtrip (s : Store) (now : Int) (newId : Nat) (b : EventBody) :
    ∃ p ∈ (getEventsAll (createEvent s now newId b).2).data,
      p.id = newId ∧ p.title = b.title ∧ p.registrationCount = 0 ∧
        p.registrations = [] := by
  have he : (createEvent s now newId b).1 ∈ (createEvent s now newId b).2.events := by
    simp [createEvent]
  have hsorted : (createEvent s now newId b).1 ∈
      sortByDateDesc (createEvent s now newId b).2.events :=
    (List.perm_insertionSort eventDateGE _).mem_iff.mpr he
  refine ⟨eventToPop (createEvent s now newId b).2 (createEvent s now newId b).1,
    ?_, rfl, rfl, rfl, rfl⟩
  exact List.mem_map_of_mem _ hsorted

/-- C7: deleting a nonexistent event id answers 404 and leaves the store
entirely unchanged; deleting an existing id (ids distinct) removes exactly
that event, answers the 200 success message, and leaves every other
record — all users and all other events — in place. -/
theorem C7_delete_frame (s : Store) (id : Nat) :
    ((∀ e ∈ s.events, e.id ≠ id) →
        deleteEvent s id = (.notFound "Event not found", s) ∧
        (deleteEvent s id).1.status = 404)
  ∧ (∀ e ∈ s.events, e.id = id → (s.events.map Event.id).Nodup →
        (deleteEvent s id).1 = .ok "Event deleted successfully" ∧
        (deleteEvent s id).1.status = 200 ∧
        (deleteEvent s id).2.users = s.users ∧
        (∀ x : Event, x ∈ (deleteEvent s id).2.events ↔ x ∈ s.events ∧ x.id ≠ id) ∧
        (deleteEvent s id).2.events.length + 1 = s.events.length) := by
  constructor
  · intro h
    have hfind : s.events.find? (fun e => e.id == id) = none :=
      List.find?_eq_none.mpr (fun x hx => by simpa using h x hx)
    have he : deleteEvent s id = (.notFound "Event not found", s) := by
      simp [deleteEvent, hfind]
    exact ⟨he, by rw [he]; rfl⟩
  · intro e he heid hnodup
    have hfind : ∃ e0, s.events.find? (fun x => x.id == id) = some e0 := by
      rw [← Option.isSome_iff_exists]
      exact List.find?_isSome.mpr ⟨e, he, by simp [heid]⟩
    obtain ⟨e0, hfind⟩ := hfind
    have hd : deleteEvent s id =
        (.ok "Event deleted successfully",
         { s with events := s.events.filter (fun x => x.id != id) }) := by
      simp [deleteEvent, hfind]
    have hsing : s.events.filter (fun x => x.id == id) = [e] := by
      have h2 := filter_id_singleton s.events e he hnodup
      rw [heid] at h2
      exact h2
    refine ⟨by rw [hd], by rw [hd]; rfl, by rw [hd], fun x => ?_, ?_⟩
    · rw [hd]
      simp [List.mem_filter]
    · rw [hd]
      have hperm := (List.filter_append_perm (fun x => x.id == id) s.events).length_eq
      rw [List.length_append, hsing] at hperm
      show (s.events.filter (fun x => x.id != id)).length + 1 = s.events.length
      have hfun : (s.events.filter (fun x => x.id != id))
          = s.events.filter (fun x => !(x.id == id)) := rfl
      rw [hfun]
      simp only [List.length_cons, List.length_nil] at hperm
      omega

/-- C7 witness: on the concrete store, deleting id 99 is a 404 no-op and
deleting id 1 removes exactly that event, keeping the users untouched. -/
theorem C7_witness :
    deleteEvent demoStore 99 = (.notFound "Event not found", demoStore)
  ∧ (deleteEvent demoStore 1).1 = .ok "Event deleted successfully"
  ∧ (deleteEvent demoStore 1).2.users = demoStore.users
  ∧ (deleteEvent demoStore 1).2.events.length + 1 = demoStore.events.length := by
  have h2 := (C7_delete_frame demoStore 1).2 demoEvent1 (by decide) (by decide) (by decide)
  exact ⟨((C7_delete_frame demoStore 99).1 (by decide)).1, h2.1, h2.2.2.1, h2.2.2.2.2⟩

/-- C8: the per-event count fan-out of `GET /events` is all-or-nothing —
any rejected count sub-query makes the whole request answer the 500
`{message: 'Server error'}` body with no partial data, and when every
sub-query resolves the response holds a result for every event. -/
theorem C8_fanout_all_or_nothing (s : Store) (count : Event → Except String Nat) :
    ((∃ e ∈ s.events, ∃ msg, count e = .error msg) →
        getEventsWith s count = .serverError "Server error" ∧
        (getEventsWith s count).status = 500)
  ∧ ((∀ e ∈ s.events, ∃ c, count e = .ok c) →
        ∃ data, getEventsWith s count = .ok data ∧
          data.length = s.events.length) := by
  constructor
  · rintro ⟨e, he, msg, hm⟩
    have he2 : e ∈ sortByDateDesc s.events :=
      (List.perm_insertionSort eventDateGE s.events).mem_iff.mpr he
    have hmem : ((count e).map (fun c => eventToOut e c)) ∈
        (sortByDateDesc s.events).map (fun x => (count x).map (fun c => eventToOut x c)) :=
      List.mem_map_of_mem _ he2
    have herr : ((count e).map (fun c => eventToOut e c)) = .error msg := by
      rw [hm]; rfl
    obtain ⟨m, hp⟩ := promiseAll_error_of_mem _ _ hmem msg herr
    have hres : getEventsWith s count = .serverError "Server error" := by
      unfold getEventsWith
      rw [hp]
    exact ⟨hres, by rw [hres]; rfl⟩
  · intro h
    have hall : ∀ x ∈ (sortByDateDesc s.events).map
        (fun e => (count e).map (fun c => eventToOut e c)), ∃ a, x = .ok a := by
      intro x hx
      simp only [List.mem_map] at hx
      obtain ⟨e, he, rfl⟩ := hx
      obtain ⟨c, hc⟩ := h e ((List.perm_insertionSort eventDateGE s.events).mem_iff.mp he)
      exact ⟨eventToOut e c, by rw [hc]; rfl⟩
    obtain ⟨xs, hxs, hlen⟩ := promiseAll_ok_of_forall _ hall
    refine ⟨xs, ?_, ?_⟩
    · unfold getEventsWith
      rw [hxs]
    · rw [hlen, List.length_map]
      exact (List.perm_insertionSort eventDateGE s.events).length_eq

/-- C8 witness: a failing count oracle turns the whole concrete request
into the 500 body; an all-ok oracle yields one result per stored event. -/
theorem C8_witness :
    getEventsWith demoStore demoCountFail = .serverError "Server error"
  ∧ ∃ data, getEventsWith demoStore (fun _ => .ok 7) = .ok data ∧
      data.length = demoStore.events.length := by
  constructor
  · exact ((C8_fanout_all_or_nothing demoStore demoCountFail).1
      ⟨demoEvent1, by decide, "boom", rfl⟩).1
  · exact (C8_fanout_all_or_nothing demoStore (fun _ => .ok 7)).2
      (fun e _ => ⟨7, rfl⟩)

/-- C9: `GET /users` without a page parameter behaves exactly as page 1
(skipping nothing), without a limit parameter exactly as limit 10, and the
response echoes the effective page number in its `page` field. -/
theorem C9_users_param_defaults (s : Store) (search : Option String)
    (pageQ limitQ : Option Nat) :
    getUsers s search none limitQ = getUsers s search (some 1) limitQ
  ∧ getUsers s search pageQ none = getUsers s search pageQ (some 10)
  ∧ (getUsers s search pageQ limitQ).page = pageQ.getD 1 :=
  ⟨rfl, rfl, rfl⟩

/-- C10: in `GET /events/all` the `count` field equals the length of the
`data` array (the number of events); in `GET /events/:id/registrations`
the `count` field equals the length of the returned registrations
array. -/
theorem C10_count_eq_data_length (s : Store) (id : Nat) :
    (getEventsAll s).count = (getEventsAll s).data.length
  ∧ (∀ c d, getEventRegistrations s id = .ok c d → c = d.length)
  ∧ (∀ e, s.events.find? (fun x => x.id == id) = some e →
        getEventRegistrations s id
          = .ok e.registrations.length (e.registrations.map (populateReg s))) := by
  refine ⟨?_, fun c d h => ?_, fun e hf => ?_⟩
  · show (sortByDateDesc s.events).length
        = ((sortByDateDesc s.events).map (eventToPop s)).length
    rw [List.length_map]
  · unfold getEventRegistrations at h
    cases hf : s.events.find? (fun x => x.id == id) with
    | none =>
      rw [hf] at h
      exact absurd h (by simp)
    | some e =>
      rw [hf] at h
      injection h with h1 h2
      rw [← h1, ← h2, List.length_map]
  · simp [getEventRegistrations, hf]

/-- C10 witness: on the concrete store, the `GET /events/all` count equals
its data length, and the single-event registrations response reports a
count of 1 for its one-element registrations array. -/
theorem C10_witness :
    (getEventsAll demoStore).count = (getEventsAll demoStore).data.length
  ∧ getEventRegistrations demoStore 1
      = .ok demoEvent1.registrations.length
          (demoEvent1.registrations.map (populateReg demoStore))
  ∧ (1 : Nat) = [populateReg demoStore (Registration.mk 2)].length := by
  refine ⟨(C10_count_eq_data_length demoStore 1).1,
    (C10_count_eq_data_length demoStore 1).2.2 demoEvent1 (by decide), ?_⟩
  exact (C10_count_eq_data_length demoStore 1).2.1 1
    [populateReg demoStore (Registration.mk 2)] (by decide)

end AdminApi
